import Mathlib

/-!
Verification of the structured-notes front end (notes.js and qna.js).

The development shallowly embeds the two scripts:

* `parseStructuredNotes`, `createFallbackStructure` and
  `formatNotesForDownload` from notes.js, working on the character lists
  underlying the input strings;
* the bounded-retry polling of `handleGenerateNotes` from notes.js as a step
  function plus a driver over a list of backend responses;
* the control-disabling discipline of `sendMessage` from qna.js as an event
  trace.

All definitions are executable; theorems about them follow.
-/

namespace VideoNotes

/-- Whitespace test standing in for the JavaScript `\s` class and for the
characters removed by `String.prototype.trim`; the inputs the parser feeds to
it only ever contain ASCII whitespace. -/
def isWS (c : Char) : Bool := c.isWhitespace

/-- The JavaScript `line.trim()` on a character list: whitespace removed from
both ends. -/
def jsTrim (l : List Char) : List Char :=
  ((l.dropWhile isWS).reverse.dropWhile isWS).reverse

/-- The JavaScript `notes.split('\n')`: split into lines at every newline,
keeping empty pieces, so that `[]` splits to `[[]]`. -/
def splitLinesCh : List Char → List (List Char)
  | [] => [[]]
  | c :: cs =>
    if c = '\n' then [] :: splitLinesCh cs
    else
      match splitLinesCh cs with
      | l :: ls => (c :: l) :: ls
      | [] => [[c]]

/-- The JavaScript `s.toLowerCase()` (ASCII titles only appear here). -/
def jsToLower (s : String) : String := ⟨s.data.map Char.toLower⟩

/-- The JavaScript `s.includes(pat)` : `pat` occurs contiguously in `s`. -/
def infixChars (p : List Char) : List Char → Bool
  | [] => p.isPrefixOf []
  | c :: t => p.isPrefixOf (c :: t) || infixChars p t

/-- String-level wrapper for `String.prototype.includes`. -/
def includesStr (s pat : String) : Bool := infixChars pat.data s.data

/-- Shared tail of the heading/bullet/numbered regexes: `\s+.+` followed by the
`replace` that strips the matched part. Returns the text after the greedy
whitespace run, or `none` when the pattern does not match. On lines that do
not end in whitespace (every trimmed line) this is exactly the JavaScript
behaviour. -/
def wsThenRest (rest : List Char) : Option (List Char) :=
  match rest with
  | c :: _ =>
    if isWS c then
      match rest.dropWhile isWS with
      | [] => none
      | t => some t
    else none
  | [] => none

/-- `line.match(/^#\s+.+/)` together with `line.replace(/^#\s+/, '')`:
`some title` when the line is a section heading. -/
def matchHash (cs : List Char) : Option (List Char) :=
  match cs with
  | c :: rest => if c = '#' then wsThenRest rest else none
  | [] => none

/-- `line.match(/^##\s+.+/)` together with `line.replace(/^##\s+/, '')`:
`some title` when the line is a subsection heading. Only consulted after
`matchHash` failed, as in the source's else-if chain. -/
def matchHash2 (cs : List Char) : Option (List Char) :=
  match cs with
  | c1 :: c2 :: rest => if c1 = '#' ∧ c2 = '#' then wsThenRest rest else none
  | _ => none

/-- `line.match(/^\d+\.\s+.+/)` together with `line.replace(/^\d+\.\s+/, '')`:
`some point` when the line is a numbered item. -/
def matchNumbered (cs : List Char) : Option (List Char) :=
  let ds := cs.takeWhile Char.isDigit
  if ds = [] then none
  else
    match cs.drop ds.length with
    | c :: rest => if c = '.' then wsThenRest rest else none
    | [] => none

/-- `line.match(/^-\s+.+/)` together with `line.replace(/^-\s+/, '')`:
`some point` when the line is a bullet item. -/
def matchBullet (cs : List Char) : Option (List Char) :=
  match cs with
  | c :: rest => if c = '-' then wsThenRest rest else none
  | [] => none

/-- Subsection objects created by `parseStructuredNotes`: `{ title, points }`.
`points` is an `Option` because plain JavaScript objects may lack the field;
the parser always initialises it to an (empty) array. -/
structure Subsection where
  title : String
  points : Option (List String)
deriving Repr, DecidableEq

/-- Section objects of the outline tree. `content` and `points` are `Option`s
because the synthesized "Key Points" section has no `content` field and
ordinary sections have no `points` field. -/
structure Section where
  title : String
  content : Option (List String)
  points : Option (List String)
  subsections : Option (List Subsection)
deriving Repr, DecidableEq

/-- The section currently being built (`currentSection` in the source), whose
`content` and `subsections` are always arrays and which never has a `points`
field. -/
structure OpenSection where
  title : String
  content : List String
  subsections : List Subsection
deriving Repr, DecidableEq

/-- Pushing `currentSection` into the result list. -/
def toSection (os : OpenSection) : Section :=
  { title := os.title, content := some os.content, points := none,
    subsections := some os.subsections }

/-- Parser state threaded through the `lines.forEach` loop. In the source
`currentSubsection` aliases the most recently pushed element of
`currentSection.subsections` (and is reset to `null` whenever a new section
opens), so it is modelled by the flag `subOpen` plus updates to that last
element. -/
structure ParseState where
  sections : List Section
  currentSection : Option OpenSection
  subOpen : Bool
  inKeyPoints : Bool
  keyPoints : List String
deriving Repr, DecidableEq

/-- State at the top of the `forEach` loop. -/
def initState : ParseState :=
  { sections := [], currentSection := none, subOpen := false,
    inKeyPoints := false, keyPoints := [] }

/-- Replace the last element of a list, as `currentSubsection.points.push`
does through the alias into `currentSection.subsections`. -/
def updateLast (f : α → α) : List α → List α
  | [] => []
  | [a] => [f a]
  | a :: b :: rest => a :: updateLast f (b :: rest)

/-- `currentSubsection.points.push(point)` including the defensive
`if (!currentSubsection.points) currentSubsection.points = []`. -/
def pushSubPoint (os : OpenSection) (pt : String) : OpenSection :=
  { os with
    subsections :=
      updateLast (fun ss => { ss with points := some (ss.points.getD [] ++ [pt]) })
        os.subsections }

/-- The last two checks of the else-if chain of the `forEach` body: the
bullet-point rule and the generic content rule, reached whenever none of the
earlier patterns fired. In the unreachable state `currentSection = none` with
`subOpen = true` a bullet would be pushed into a detached object in the
source; the point is lost from the output tree either way, so the model drops
it. -/
def parseLineTail (st : ParseState) (line : List Char) : ParseState :=
  match matchBullet line with
  | some pt =>
    match st.currentSection, st.subOpen with
    | some os, true => { st with currentSection := some (pushSubPoint os pt.asString) }
    | some os, false =>
      { st with currentSection := some { os with content := os.content ++ [pt.asString] } }
    | none, _ => st
  | none =>
    if 0 < line.length ∧ line.head? ≠ some '#' then
      match st.currentSection with
      | some os =>
        if 5 < line.length then
          { st with currentSection := some { os with content := os.content ++ [line.asString] } }
        else st
      | none => st
    else st

/-- One iteration of the `lines.forEach(line => ...)` body of
`parseStructuredNotes`: trim the line, then run the else-if chain of the five
pattern checks. The numbered-item rule fires only when its pattern matches
AND the key-points flag is on; otherwise control falls through to
`parseLineTail`, exactly as in the source's `else if` conditions. -/
def parseLine (st : ParseState) (raw : List Char) : ParseState :=
  let line := jsTrim raw
  match matchHash line with
  | some t =>
    { sections :=
        st.sections ++ (match st.currentSection with
                        | some os => [toSection os]
                        | none => []),
      currentSection := some { title := t.asString, content := [], subsections := [] },
      subOpen := false, inKeyPoints := false, keyPoints := st.keyPoints }
  | none =>
    match matchHash2 line with
    | some t =>
      let title := t.asString
      let isKP := includesStr (jsToLower title) "key points"
      let kps := if isKP then [] else st.keyPoints
      match st.currentSection with
      | some os =>
        { st with
          currentSection :=
            some { os with subsections := os.subsections ++ [{ title := title, points := some [] }] },
          subOpen := true, inKeyPoints := isKP, keyPoints := kps }
      | none => { st with inKeyPoints := isKP, keyPoints := kps }
    | none =>
      match matchNumbered line with
      | some pt =>
        if st.inKeyPoints then { st with keyPoints := st.keyPoints ++ [pt.asString] }
        else parseLineTail st line
      | none => parseLineTail st line

/-- `notes.split('\n').filter(line => line.trim())`. -/
def parsedLines (notes : String) : List (List Char) :=
  (splitLinesCh notes.data).filter (fun l => !(jsTrim l).isEmpty)

/-- The state after the whole `forEach` pass. -/
def parseLinePass (notes : String) : ParseState :=
  (parsedLines notes).foldl parseLine initState

/-- The section list after the loop and the trailing
`if (currentSection) sections.push(currentSection)`. -/
def linePassSections (notes : String) : List Section :=
  (parseLinePass notes).sections ++
    (match (parseLinePass notes).currentSection with
     | some os => [toSection os]
     | none => [])

/-- The key-points accumulator as it stands at the end of the line pass. -/
def keyPointsAcc (notes : String) : List String :=
  (parseLinePass notes).keyPoints

/-- `s.title.toLowerCase().includes('overview')`, the predicate of the
`findIndex` in the post-pass. -/
def isOverviewSection (s : Section) : Bool :=
  includesStr (jsToLower s.title) "overview"

/-- The synthesized section `{ title: "Key Points", points, subsections: [] }`. -/
def mkKeyPointsSection (pts : List String) : Section :=
  { title := "Key Points", content := none, points := some pts, subsections := some [] }

/-- `sections.splice(n, 0, x)`: insert `x` at index `n` (clamped to the end),
leaving the other elements in place. -/
def spliceAt (n : Nat) (x : Section) (l : List Section) : List Section :=
  l.take n ++ x :: l.drop n

/-- The post-pass of `parseStructuredNotes`: when key points were collected
and at least one section exists, splice the synthesized "Key Points" section
after the first "overview" section, or at index 1 when there is none. -/
def splicedSections (notes : String) : List Section :=
  if 0 < (keyPointsAcc notes).length ∧ 0 < (linePassSections notes).length then
    match (linePassSections notes).findIdx? isOverviewSection with
    | some i =>
      spliceAt (i + 1) (mkKeyPointsSection (keyPointsAcc notes)) (linePassSections notes)
    | none => spliceAt 1 (mkKeyPointsSection (keyPointsAcc notes)) (linePassSections notes)
  else linePassSections notes

/-- `createFallbackStructure(notes)` from notes.js: the degenerate
single-section tree holding the raw input as its one paragraph. -/
def createFallbackStructure (notes : String) : List Section :=
  [{ title := "Content Notes", content := some [notes], points := none,
     subsections := some [] }]

/-- `parseStructuredNotes(notes)` from notes.js. -/
def parseStructuredNotes (notes : String) : List Section :=
  if 0 < (splicedSections notes).length then splicedSections notes
  else createFallbackStructure notes

/-! ### formatNotesForDownload -/

/-- `"=".repeat(n)` and similar character repetitions. -/
def jsRepeat (c : Char) (n : Nat) : String := ⟨List.replicate n c⟩

/-- The `section.content.forEach(paragraph => ...)` block: every paragraph on
its own line followed by a blank line. -/
def paragraphLines : List String → String
  | [] => ""
  | p :: rest => p ++ "\n\n" ++ paragraphLines rest

/-- The `section.points.forEach((point, pointIndex) => ...)` block, `i` being
the running `pointIndex` (0-based, printed as `pointIndex + 1`). -/
def pointsLinesCode : Nat → List String → String
  | _, [] => ""
  | i, p :: rest => "  " ++ toString (i + 1) ++ ". " ++ p ++ "\n" ++ pointsLinesCode (i + 1) rest

/-- The `subsection.points.forEach(point => ...)` block. The bullet glyph is
the literal byte sequence found in the source (mojibake for a bullet). -/
def bulletLinesCode : List String → String
  | [] => ""
  | p :: rest => "      â€¢ " ++ p ++ "\n" ++ bulletLinesCode rest

/-- The `section.subsections.forEach((subsection, subIndex) => ...)` block,
`i` being the running `subIndex`. -/
def subsectionBlocksCode : Nat → List Subsection → String
  | _, [] => ""
  | i, ss :: rest =>
    "   " ++ toString (i + 1) ++ ". " ++ ss.title ++ "\n" ++
      (match ss.points with
       | some pts => bulletLinesCode pts
       | none => "") ++ "\n" ++
      subsectionBlocksCode (i + 1) rest

/-- One iteration of the outer `sections.forEach((section, index) => ...)`:
the string appended to `content` for this section, or `none` when the
unguarded `section.subsections.forEach` would throw because the field is
absent. -/
def sectionBlockCode (i : Nat) (s : Section) : Option String :=
  match s.subsections with
  | none => none
  | some subs =>
    some (toString (i + 1) ++ ". " ++ s.title ++ "\n" ++
      jsRepeat '=' (s.title.length + 4) ++ "\n\n" ++
      (match s.content with
       | some ps => paragraphLines ps
       | none => "") ++
      (match s.points with
       | some pts => "Key Points:\n" ++ pointsLinesCode 0 pts ++ "\n"
       | none => "") ++
      subsectionBlocksCode 0 subs ++ "\n")

/-- The accumulating loop of `formatNotesForDownload`, threading the string
built so far. -/
def formatGo (acc : String) (i : Nat) : List Section → Option String
  | [] => some acc
  | s :: rest =>
    match sectionBlockCode i s with
    | none => none
    | some b => formatGo (acc ++ b) (i + 1) rest

/-- `formatNotesForDownload(sections)` from notes.js. The result is `none`
exactly when the function would throw (a section without a `subsections`
array). -/
def formatNotesForDownload (sections : List Section) : Option String :=
  formatGo "VIDEO NOTES\n\n" 0 sections

/-! ### Specification-side description of the export layout (claim C6)

These definitions follow the specification's words for the `format` contract:
header line "VIDEO NOTES", then per section a 1-based index line, an
underline of `=` of length `len(title) + 4`, the content paragraphs each
followed by a blank line, a "Key Points:" block with 1-based numbered lines
when the section has points, the 1-based indexed subsection headings with one
bulleted line per point when the subsection has points, and a blank line
after each section. -/

/-- Spec: the underline of `=` repeated `len(title) + 4` times. -/
def underlineSpec (title : String) : String := ⟨List.replicate (title.length + 4) '='⟩

/-- Spec: 1-based numbered lines of the "Key Points:" block, `n` being the
number printed on the first line. -/
def numberedLinesSpec : Nat → List String → String
  | _, [] => ""
  | n, p :: rest => "  " ++ toString n ++ ". " ++ p ++ "\n" ++ numberedLinesSpec (n + 1) rest

/-- Spec: one bulleted line per subsection point. -/
def bulletLinesSpec : List String → String
  | [] => ""
  | p :: rest => "      â€¢ " ++ p ++ "\n" ++ bulletLinesSpec rest

/-- Spec: a 1-based indexed sub-heading line and, when the subsection has
points, one bulleted line per point. -/
def subsectionBlockSpec (n : Nat) (ss : Subsection) : String :=
  "   " ++ toString n ++ ". " ++ ss.title ++ "\n" ++
    (if ss.points.isSome then bulletLinesSpec (ss.points.getD []) else "") ++ "\n"

/-- Spec: the subsection blocks in order, numbered from `n`. -/
def subsectionListSpec : Nat → List Subsection → String
  | _, [] => ""
  | n, ss :: rest => subsectionBlockSpec n ss ++ subsectionListSpec (n + 1) rest

/-- Spec: the whole block of one section, `n` being its 1-based index. -/
def sectionBlockSpec (n : Nat) (s : Section) : String :=
  toString n ++ ". " ++ s.title ++ "\n" ++ underlineSpec s.title ++ "\n\n" ++
    (match s.content with
     | some ps => paragraphLines ps
     | none => "") ++
    (if s.points.isSome then
       "Key Points:\n" ++ numberedLinesSpec 1 (s.points.getD []) ++ "\n"
     else "") ++
    subsectionListSpec 1 (s.subsections.getD []) ++ "\n"

/-- Spec: the section blocks in order, numbered from `n`. -/
def sectionListSpec : Nat → List Section → String
  | _, [] => ""
  | n, s :: rest => sectionBlockSpec n s ++ sectionListSpec (n + 1) rest

/-- Spec: the full export string. -/
def formatSpec (sections : List Section) : String :=
  "VIDEO NOTES\n\n" ++ sectionListSpec 1 sections

/-! ### The notes-generation retry loop (claim C1) -/

/-- `MAX_RETRIES` from notes.js. -/
def MAX_RETRIES : Nat := 10

/-- `RETRY_DELAY` from notes.js, in milliseconds. -/
def RETRY_DELAY : Nat := 3000

/-- The backend's answer to one `POST /generate_notes`, as discriminated by
`handleGenerateNotes`: a success payload with truthy `notes`, a
`processing` payload, or anything else (which the handler turns into a thrown
error caught by its `catch`). -/
inductive GenResponse where
  | success (notes : String)
  | processing (message : String)
  | failure (message : String)
deriving Repr, DecidableEq

/-- What `handleGenerateNotes` does after processing one response: render the
notes, schedule another poll via `setTimeout(handleGenerateNotes, RETRY_DELAY)`,
or show the error panel. -/
inductive GenAction where
  | displayed
  | scheduledRetry (delayMs : Nat)
  | errorShown (message : String)
deriving Repr, DecidableEq

/-- Recognises the error outcome. -/
def isErrorShown : GenAction → Bool
  | .errorShown _ => true
  | _ => false

/-- One invocation of `handleGenerateNotes` from notes.js: the function first
executes `retryCount = 0` (shadowing whatever the counter held when the
invocation was scheduled), issues one poll, and dispatches on the response;
`hideLoadingState` and `showError` also reset the counter to 0. Returns the
module-level `retryCount` after the invocation together with the action
taken. -/
def handleGenerateNotesStep (retryCount : Nat) (resp : GenResponse) : Nat × GenAction :=
  let retryCount := 0
  match resp with
  | .success _ => (0, .displayed)
  | .processing _ =>
    let retryCount := retryCount + 1
    if retryCount < MAX_RETRIES then (retryCount, .scheduledRetry RETRY_DELAY)
    else (0, .errorShown "Video processing is taking too long. Please try again later.")
  | .failure m => (0, .errorShown ("Failed to generate notes: " ++ m))

/-- Outcome of driving the retry loop against a list of backend responses. -/
structure PollRun where
  finalRetryCount : Nat
  pollsIssued : Nat
  actions : List GenAction
deriving Repr, DecidableEq

/-- Drive `handleGenerateNotes` against successive backend responses: each
consumed response is one issued poll; the chain continues exactly while the
action is a scheduled retry. -/
def runGeneratePolls (rc : Nat) : List GenResponse → PollRun
  | [] => { finalRetryCount := rc, pollsIssued := 0, actions := [] }
  | r :: rest =>
    match handleGenerateNotesStep rc r with
    | (rc2, GenAction.scheduledRetry d) =>
      let next := runGeneratePolls rc2 rest
      { finalRetryCount := next.finalRetryCount, pollsIssued := next.pollsIssued + 1,
        actions := GenAction.scheduledRetry d :: next.actions }
    | (rc2, a) => { finalRetryCount := rc2, pollsIssued := 1, actions := [a] }

/-! ### The Q and A send path (claim C8) -/

/-- The observable steps of one `sendMessage()` run in qna.js, in program
order. `awaitFetch` marks the `await this.getAIResponse(question)` suspension
point. -/
inductive QnaEvent where
  | addUserMessage
  | clearInput
  | showTyping
  | disableControls
  | awaitFetch
  | hideTyping
  | processReply
  | updateStats
  | showErrorMessage
  | enableControls
deriving Repr, DecidableEq

/-- The event trace of `sendMessage()` for a given raw input value: an empty
trimmed question returns immediately; otherwise the user message is added,
the input cleared, the typing indicator shown and the controls disabled, then
the fetch is awaited; the reply (success) or the caught failure is processed,
and finally `enableInput()` runs on either path. `ok` tells whether
`getAIResponse` resolved or threw. -/
def sendMessageTrace (value : String) (ok : Bool) : List QnaEvent :=
  let question := (jsTrim value.data).asString
  if question = "" then []
  else
    [.addUserMessage, .clearInput, .showTyping, .disableControls, .awaitFetch] ++
      (if ok then [.hideTyping, .processReply, .updateStats]
       else [.hideTyping, .showErrorMessage]) ++
      [.enableControls]

/-- The disabled/enabled state of the chat input element and of the send
button. -/
structure Controls where
  inputDisabled : Bool
  sendDisabled : Bool
deriving Repr, DecidableEq

/-- Effect of one event on the controls: `disableInput()` disables both, and
`enableInput()` re-enables both. -/
def stepControls (c : Controls) : QnaEvent → Controls
  | .disableControls => { inputDisabled := true, sendDisabled := true }
  | .enableControls => { inputDisabled := false, sendDisabled := false }
  | _ => c

/-- Controls state after a sequence of events, both starting enabled. -/
def controlsAfter (es : List QnaEvent) : Controls :=
  es.foldl stepControls { inputDisabled := false, sendDisabled := false }

/-! ### Auxiliary definitions used only to state claims -/

/-- The "trimmed-line-filtered input" named by claim C2: the input with blank
lines removed and each remaining line trimmed. -/
def trimmedLineFiltered (notes : String) : String :=
  String.intercalate "\n"
    (((splitLinesCh notes.data).filter (fun l => !(jsTrim l).isEmpty)).map
      (fun l => (jsTrim l).asString))

/-- A block of numbered lines, one per item, used to build inputs for claim
C9. Every line carries the numeral `1`; the parser never inspects the value
of the numeral. -/
def numberedLines : List String → String
  | [] => ""
  | s :: rest => "1. " ++ s ++ "\n" ++ numberedLines rest

/-- Well-formedness of one key-point item used in claim C9: non-empty, not
starting or ending in whitespace, and free of newlines, so that the item
survives line splitting and trimming unchanged. -/
def goodItem (s : String) : Prop :=
  s.data ≠ [] ∧
    s.data.head?.all (fun c => !isWS c) = true ∧
    s.data.getLast?.all (fun c => !isWS c) = true ∧
    '\n' ∉ s.data

instance (s : String) : Decidable (goodItem s) :=
  inferInstanceAs (Decidable (s.data ≠ [] ∧
    s.data.head?.all (fun c => !isWS c) = true ∧
    s.data.getLast?.all (fun c => !isWS c) = true ∧
    '\n' ∉ s.data))

/-- Input family for claim C9: a subsection heading naming "Key Points"
appearing before any section heading, followed by numbered items, followed by
the document's only section heading. -/
def keyPointsFirstInput (items : List String) : String :=
  "## Key Points\n" ++ (numberedLines items ++ "# Conclusion")

/-! ## Theorems -/

/-- Claim C1 (code bug evidence). With the backend answering every poll with
a `processing` status, `handleGenerateNotes` keeps scheduling retries without
bound: eleven consecutive `processing` responses produce eleven issued polls
(so the 11th poll IS issued), the action after each of the first ten polls is
still a scheduled retry at `RETRY_DELAY` spacing, and no error state is ever
shown. The cause is the `retryCount = 0` executed at the top of every
invocation: the retry timer re-invokes `handleGenerateNotes` itself, so the
counter never reaches `MAX_RETRIES`. -/
theorem handleGenerateNotes_unbounded_retry :
    (runGeneratePolls 0 (List.replicate 11 (GenResponse.processing "p"))).pollsIssued = 11 ∧
    (runGeneratePolls 0 (List.replicate 10 (GenResponse.processing "p"))).actions =
      List.replicate 10 (GenAction.scheduledRetry RETRY_DELAY) ∧
    ((runGeneratePolls 0 (List.replicate 11 (GenResponse.processing "p"))).actions.all
      (fun a => !isErrorShown a)) = true := by
  decide

/-- Claim C3. On the worked example input, `parseStructuredNotes` returns
exactly three sections: "Overview" with content `["Some intro"]` and a single
"Key Points" subsection whose point list is empty, then the synthesized
"Key Points" section carrying `["First", "Second"]` spliced directly after
"Overview", then "Details" with content `["a detail"]`. -/
theorem parse_worked_example :
    parseStructuredNotes
        "# Overview\nSome intro\n## Key Points\n1. First\n2. Second\n# Details\n- a detail" =
      [{ title := "Overview", content := some ["Some intro"], points := none,
         subsections := some [{ title := "Key Points", points := some [] }] },
       { title := "Key Points", content := none, points := some ["First", "Second"],
         subsections := some [] },
       { title := "Details", content := some ["a detail"], points := none,
         subsections := some [] }] := by
  decide

/-- Claim C2 (counterexample). The input `"  hi there  "` contains no heading
marker, yet the single "Content Notes" section returned by
`parseStructuredNotes` holds the raw input — not the trimmed-line-filtered
input `"hi there"` the claim predicts. -/
theorem parse_no_headings_counterexample :
    ((splitLinesCh "  hi there  ".data).all
        (fun l => (matchHash (jsTrim l)).isNone && (matchHash2 (jsTrim l)).isNone)) = true ∧
    parseStructuredNotes "  hi there  " =
      [{ title := "Content Notes", content := some ["  hi there  "], points := none,
         subsections := some [] }] ∧
    trimmedLineFiltered "  hi there  " = "hi there" ∧
    parseStructuredNotes "  hi there  " ≠
      [{ title := "Content Notes", content := some [trimmedLineFiltered "  hi there  "],
         points := none, subsections := some [] }] := by
  decide

/-- Claim C7. `parseStructuredNotes` is a total function (it is a Lean `def`
with no error path) returning at least one section on every input, and when
the line pass plus post-pass produce no section it returns exactly the
degenerate fallback structure. -/
theorem parse_total_nonempty (notes : String) :
    0 < (parseStructuredNotes notes).length ∧
    (splicedSections notes = [] →
      parseStructuredNotes notes = createFallbackStructure notes) := by
  constructor
  · by_cases h : 0 < (splicedSections notes).length
    · simp [parseStructuredNotes, h]
    · simp [parseStructuredNotes, h, createFallbackStructure]
  · intro h
    simp [parseStructuredNotes, h]

/-- Witness for C7 at the empty input, whose line pass produces no section. -/
theorem parse_total_nonempty_witness :
    0 < (parseStructuredNotes "").length ∧
    parseStructuredNotes "" = createFallbackStructure "" :=
  ⟨(parse_total_nonempty "").1, (parse_total_nonempty "").2 (by decide)⟩

/-- Claim C4. Whenever the key-points accumulator is non-empty at the end of
the line pass and the section list is non-empty, the post-pass inserts
exactly one synthesized section, titled "Key Points" and carrying exactly the
accumulated points, at position `i + 1` when `i` is the index of the first
section whose lower-cased title contains "overview", and at position 1
otherwise; nothing is inserted when the section list is empty. -/
theorem parse_keyPoints_splice (notes : String) :
    (keyPointsAcc notes ≠ [] → linePassSections notes ≠ [] →
      ∃ n, splicedSections notes =
          (linePassSections notes).take n ++
            { title := "Key Points", content := none,
              points := some (keyPointsAcc notes),
              subsections := some [] } :: (linePassSections notes).drop n ∧
        ((∃ i, (linePassSections notes).findIdx? isOverviewSection = some i ∧ n = i + 1) ∨
          ((linePassSections notes).findIdx? isOverviewSection = none ∧ n = 1))) ∧
    (linePassSections notes = [] → splicedSections notes = linePassSections notes) := by
  constructor
  · intro h1 h2
    have hk : 0 < (keyPointsAcc notes).length := List.length_pos.mpr h1
    have hs : 0 < (linePassSections notes).length := List.length_pos.mpr h2
    cases hfind : (linePassSections notes).findIdx? isOverviewSection with
    | some i =>
      refine ⟨i + 1, ?_, Or.inl ⟨i, rfl, rfl⟩⟩
      simp [splicedSections, hfind, hk, hs, spliceAt, mkKeyPointsSection]
    | none =>
      refine ⟨1, ?_, Or.inr ⟨rfl, rfl⟩⟩
      simp [splicedSections, hfind, hk, hs, spliceAt, mkKeyPointsSection]
  · intro h
    simp [splicedSections, h]

/-- Witness for C4 at the worked-example input of C3, which has both a
non-empty accumulator and a non-empty section list. -/
theorem parse_keyPoints_splice_witness :
    ∃ n, splicedSections
          "# Overview\nSome intro\n## Key Points\n1. First\n2. Second\n# Details\n- a detail" =
        (linePassSections
            "# Overview\nSome intro\n## Key Points\n1. First\n2. Second\n# Details\n- a detail").take n ++
          { title := "Key Points", content := none,
            points := some (keyPointsAcc
              "# Overview\nSome intro\n## Key Points\n1. First\n2. Second\n# Details\n- a detail"),
            subsections := some [] } ::
          (linePassSections
              "# Overview\nSome intro\n## Key Points\n1. First\n2. Second\n# Details\n- a detail").drop n ∧
      ((∃ i, (linePassSections
            "# Overview\nSome intro\n## Key Points\n1. First\n2. Second\n# Details\n- a detail").findIdx?
              isOverviewSection = some i ∧ n = i + 1) ∨
        ((linePassSections
            "# Overview\nSome intro\n## Key Points\n1. First\n2. Second\n# Details\n- a detail").findIdx?
              isOverviewSection = none ∧ n = 1)) :=
  (parse_keyPoints_splice
      "# Overview\nSome intro\n## Key Points\n1. First\n2. Second\n# Details\n- a detail").1
    (by decide) (by decide)

/-- With no section open, the bullet and generic-content rules drop the line
and leave the initial state unchanged. -/
theorem parseLineTail_initState (line : List Char) :
    parseLineTail initState line = initState := by
  unfold parseLineTail
  cases hb : matchBullet line with
  | some pt => rfl
  | none => (repeat' split) <;> first | rfl | simp_all [initState]

/-- A line that is neither kind of heading leaves the initial parser state
unchanged: no section is open, so numbered, bullet and plain lines are all
dropped and the key-points flag stays off. -/
theorem parseLine_initState_of_no_heading (l : List Char)
    (h1 : matchHash (jsTrim l) = none) (h2 : matchHash2 (jsTrim l) = none) :
    parseLine initState l = initState := by
  unfold parseLine
  simp only [h1, h2]
  cases hnum : matchNumbered (jsTrim l) with
  | some pt => exact parseLineTail_initState _
  | none => exact parseLineTail_initState _

/-- Claim C2 (amended). For every input in which no line's trimmed form
matches a heading marker, `parseStructuredNotes` returns exactly one section,
titled "Content Notes", whose single content paragraph is the raw input
string. -/
theorem parse_no_headings (notes : String)
    (h : ∀ l ∈ splitLinesCh notes.data,
      matchHash (jsTrim l) = none ∧ matchHash2 (jsTrim l) = none) :
    parseStructuredNotes notes =
      [{ title := "Content Notes", content := some [notes], points := none,
         subsections := some [] }] := by
  have hgen : ∀ ls : List (List Char),
      (∀ l ∈ ls, matchHash (jsTrim l) = none ∧ matchHash2 (jsTrim l) = none) →
      ls.foldl parseLine initState = initState := by
    intro ls
    induction ls with
    | nil => intro _; rfl
    | cons a t ih =>
      intro hall
      rw [List.foldl_cons,
        parseLine_initState_of_no_heading a (hall a (List.mem_cons_self a t)).1
          (hall a (List.mem_cons_self a t)).2]
      exact ih fun l hl => hall l (List.mem_cons_of_mem a hl)
  have hfold : parseLinePass notes = initState :=
    hgen (parsedLines notes) fun l hl => h l (List.mem_of_mem_filter hl)
  have hsec : linePassSections notes = [] := by
    simp [linePassSections, hfold, initState]
  have hkp : keyPointsAcc notes = [] := by
    simp [keyPointsAcc, hfold, initState]
  simp [parseStructuredNotes, splicedSections, hsec, hkp, createFallbackStructure]

/-- Witness for the amended C2 at the counterexample input of
`parse_no_headings_counterexample`. -/
theorem parse_no_headings_witness :
    parseStructuredNotes "  hi there  " =
      [{ title := "Content Notes", content := some ["  hi there  "], points := none,
         subsections := some [] }] :=
  parse_no_headings "  hi there  " (by decide)

/-- Dropping leading whitespace is the identity on lists that do not start
with whitespace. -/
theorem dropWhile_isWS_eq_self {l : List Char}
    (h : l.head?.all (fun c => !isWS c) = true) :
    l.dropWhile isWS = l := by
  cases l with
  | nil => rfl
  | cons c t =>
    have hc : isWS c = false := by simpa using h
    simp [List.dropWhile_cons, hc]

/-- Trimming is the identity on lists that neither start nor end with
whitespace. -/
theorem jsTrim_eq_self {l : List Char}
    (h1 : l.head?.all (fun c => !isWS c) = true)
    (h2 : l.getLast?.all (fun c => !isWS c) = true) :
    jsTrim l = l := by
  unfold jsTrim
  rw [dropWhile_isWS_eq_self h1]
  rw [dropWhile_isWS_eq_self (by rw [List.head?_reverse]; exact h2)]
  exact List.reverse_reverse l

/-- Splitting at the first newline of a newline-free prefix. -/
theorem splitLinesCh_append_newline {l rest : List Char} (h : '\n' ∉ l) :
    splitLinesCh (l ++ '\n' :: rest) = l :: splitLinesCh rest := by
  induction l with
  | nil => simp [splitLinesCh]
  | cons c t ih =>
    have hc : ¬(c = '\n') := fun e => h (e ▸ List.mem_cons_self c t)
    have ht : '\n' ∉ t := fun m => h (List.mem_cons_of_mem c m)
    simp [splitLinesCh, hc, ih ht]

/-- A newline-free list splits into itself as the only line. -/
theorem splitLinesCh_no_newline {l : List Char} (h : '\n' ∉ l) :
    splitLinesCh l = [l] := by
  induction l with
  | nil => rfl
  | cons c t ih =>
    have hc : ¬(c = '\n') := fun e => h (e ▸ List.mem_cons_self c t)
    have ht : '\n' ∉ t := fun m => h (List.mem_cons_of_mem c m)
    simp [splitLinesCh, hc, ih ht]

/-- Splitting the block of numbered item lines: each item becomes the line
`1. <item>`. -/
theorem splitLinesCh_numbered (items : List String) (rest : List Char)
    (h : ∀ s ∈ items, goodItem s) :
    splitLinesCh ((numberedLines items).data ++ rest) =
      (items.map (fun s => '1' :: '.' :: ' ' :: s.data)) ++ splitLinesCh rest := by
  induction items with
  | nil => simp [numberedLines]
  | cons s t ih =>
    have hs := h s (List.mem_cons_self s t)
    have ht : ∀ x ∈ t, goodItem x := fun x hx => h x (List.mem_cons_of_mem s hx)
    have hdata : (numberedLines (s :: t)).data =
        '1' :: '.' :: ' ' :: (s.data ++ '\n' :: (numberedLines t).data) := by
      show ("1. " ++ s ++ "\n" ++ numberedLines t).data = _
      rw [String.data_append, String.data_append, String.data_append]
      have e1 : "1. ".data = ['1', '.', ' '] := rfl
      have e2 : "\n".data = ['\n'] := rfl
      rw [e1, e2]
      simp
    have hnl : '\n' ∉ '1' :: '.' :: ' ' :: s.data := by
      intro hmem
      rcases List.mem_cons.mp hmem with e | hmem
      · exact absurd e (by decide)
      rcases List.mem_cons.mp hmem with e | hmem
      · exact absurd e (by decide)
      rcases List.mem_cons.mp hmem with e | hmem
      · exact absurd e (by decide)
      · exact hs.2.2.2 hmem
    rw [hdata]
    have hassoc : ('1' :: '.' :: ' ' :: (s.data ++ '\n' :: (numberedLines t).data)) ++ rest =
        ('1' :: '.' :: ' ' :: s.data) ++ '\n' :: ((numberedLines t).data ++ rest) := by
      simp
    rw [hassoc, splitLinesCh_append_newline hnl, ih ht]
    rfl

/-- A line matching the numbered-item pattern starts with a digit. -/
theorem matchNumbered_head {l t : List Char} (h : matchNumbered l = some t) :
    ∃ d l2, l = d :: l2 ∧ d.isDigit = true := by
  cases l with
  | nil => simp [matchNumbered] at h
  | cons d l2 =>
    by_cases hd : d.isDigit
    · exact ⟨d, l2, rfl, hd⟩
    · simp [matchNumbered, List.takeWhile_cons, hd] at h

/-- Claim C5. A numbered line processed while the parser is not in
key-points-collection mode is not treated as a list item: it is appended
verbatim (numbering kept) to the open section's content exactly when a
section is open and the trimmed line is longer than 5 characters, and is
dropped otherwise; no other component of the state changes. -/
theorem numbered_line_outside_keypoints (st : ParseState) (raw : List Char)
    (hnum : (matchNumbered (jsTrim raw)).isSome = true)
    (hkp : st.inKeyPoints = false) :
    parseLine st raw =
      match st.currentSection with
      | some os =>
        if 5 < (jsTrim raw).length then
          { st with
            currentSection := some { os with content := os.content ++ [(jsTrim raw).asString] } }
        else st
      | none => st := by
  obtain ⟨t, ht⟩ := Option.isSome_iff_exists.mp hnum
  obtain ⟨d, l2, hl, hd⟩ := matchNumbered_head ht
  have hdh : d ≠ '#' := by
    intro hcon
    rw [hcon] at hd
    exact absurd hd (by decide)
  have hdb : d ≠ '-' := by
    intro hcon
    rw [hcon] at hd
    exact absurd hd (by decide)
  have h1 : matchHash (jsTrim raw) = none := by
    rw [hl]
    simp [matchHash, hdh]
  have h2 : matchHash2 (jsTrim raw) = none := by
    rw [hl]
    cases l2 with
    | nil => simp [matchHash2]
    | cons c2 l3 => simp [matchHash2, hdh]
  have hb : matchBullet (jsTrim raw) = none := by
    rw [hl]
    simp [matchBullet, hdb]
  unfold parseLine
  simp only [h1, h2, ht, hkp, Bool.false_eq_true, if_false]
  unfold parseLineTail
  simp only [hb]
  rw [hl]
  simp [hdh, hkp]

/-- Witness for C5: a numbered line of more than 5 characters hitting a state
with an open section and key-points mode off is appended verbatim as content. -/
theorem numbered_line_outside_keypoints_witness :
    parseLine
        { sections := [], currentSection := some { title := "Topic", content := [], subsections := [] },
          subOpen := false, inKeyPoints := false, keyPoints := [] }
        "1. hello world".data =
      { sections := [],
        currentSection := some { title := "Topic", content := ["1. hello world"], subsections := [] },
        subOpen := false, inKeyPoints := false, keyPoints := [] } := by
  rw [numbered_line_outside_keypoints _ _ (by decide) rfl]
  decide

/-- The bullet and generic-content rules never touch the pushed-section
list. -/
theorem parseLineTail_sections (st : ParseState) (line : List Char) :
    (parseLineTail st line).sections = st.sections := by
  unfold parseLineTail
  cases hb : matchBullet line with
  | some pt =>
    cases hc : st.currentSection with
    | some os => cases ho : st.subOpen <;> rfl
    | none => rfl
  | none => (repeat' split) <;> rfl

/-- One parser step either leaves the pushed-section list unchanged or pushes
the current open section via `toSection`. -/
theorem parseLine_sections (st : ParseState) (raw : List Char) :
    (parseLine st raw).sections = st.sections ∨
    ∃ os, (parseLine st raw).sections = st.sections ++ [toSection os] := by
  simp only [parseLine]
  cases hh : matchHash (jsTrim raw) with
  | some t =>
    cases hc : st.currentSection with
    | none => exact Or.inl (by simp)
    | some os => exact Or.inr ⟨os, rfl⟩
  | none =>
    cases hh2 : matchHash2 (jsTrim raw) with
    | some t =>
      cases hc : st.currentSection with
      | none => exact Or.inl rfl
      | some os => exact Or.inl rfl
    | none =>
      cases hn : matchNumbered (jsTrim raw) with
      | some pt =>
        cases hk : st.inKeyPoints with
        | true => exact Or.inl rfl
        | false => exact Or.inl (parseLineTail_sections st _)
      | none => exact Or.inl (parseLineTail_sections st _)

/-- Every section pushed by one parser step keeps the invariant that all
pushed sections carry a `subsections` array: sections only enter the list via
`toSection`, which always supplies one. -/
theorem parseLine_preserves_subsSome (st : ParseState) (raw : List Char)
    (h : st.sections.all (fun s => s.subsections.isSome) = true) :
    (parseLine st raw).sections.all (fun s => s.subsections.isSome) = true := by
  rcases parseLine_sections st raw with hq | ⟨os, hq⟩ <;> rw [hq] <;>
    simp_all [toSection]

/-- The fold over all lines keeps the invariant. -/
theorem foldl_preserves_subsSome (ls : List (List Char)) (st : ParseState)
    (h : st.sections.all (fun s => s.subsections.isSome) = true) :
    (ls.foldl parseLine st).sections.all (fun s => s.subsections.isSome) = true := by
  induction ls generalizing st with
  | nil => exact h
  | cons l t ih => exact ih _ (parseLine_preserves_subsSome st l h)

/-- All sections produced by the line pass carry a `subsections` array. -/
theorem linePassSections_subsSome (notes : String) :
    (linePassSections notes).all (fun s => s.subsections.isSome) = true := by
  have hfold := foldl_preserves_subsSome (parsedLines notes) initState rfl
  unfold linePassSections parseLinePass
  unfold parseLinePass at hfold
  cases hc : ((parsedLines notes).foldl parseLine initState).currentSection <;>
    simp_all [toSection]

/-- The post-pass keeps the invariant: the synthesized section also carries a
(empty) `subsections` array. -/
theorem splicedSections_subsSome (notes : String) :
    (splicedSections notes).all (fun s => s.subsections.isSome) = true := by
  have hall := linePassSections_subsSome notes
  rw [List.all_eq_true] at hall
  unfold splicedSections
  split
  · rw [List.all_eq_true]
    intro s hs
    split at hs <;>
      · simp only [spliceAt] at hs
        rcases List.mem_append.mp hs with hmem | hmem
        · exact hall s (List.take_subset _ _ hmem)
        · rcases List.mem_cons.mp hmem with rfl | hmem
          · rfl
          · exact hall s (List.drop_subset _ _ hmem)
  · exact linePassSections_subsSome notes

/-- When every section carries a `subsections` array, the export loop reaches
the end of the list and produces a string. -/
theorem formatGo_isSome (l : List Section) (i : Nat) (acc : String)
    (h : l.all (fun s => s.subsections.isSome) = true) :
    (formatGo acc i l).isSome = true := by
  induction l generalizing i acc with
  | nil => rfl
  | cons s rest ih =>
    rw [List.all_cons, Bool.and_eq_true] at h
    obtain ⟨h1, h2⟩ := h
    obtain ⟨subs, hsub⟩ := Option.isSome_iff_exists.mp h1
    unfold formatGo sectionBlockCode
    rw [hsub]
    exact ih _ _ h2

/-- The 0-based `pointIndex` loop prints the same lines as 1-based numbering
started one higher. -/
theorem pointsLinesCode_eq_spec (l : List String) :
    ∀ i, pointsLinesCode i l = numberedLinesSpec (i + 1) l := by
  induction l with
  | nil => intro i; rfl
  | cons p rest ih =>
    intro i
    unfold pointsLinesCode numberedLinesSpec
    rw [ih (i + 1)]

/-- The two bullet-line printers agree. -/
theorem bulletLinesCode_eq_spec (l : List String) :
    bulletLinesCode l = bulletLinesSpec l := by
  induction l with
  | nil => rfl
  | cons p rest ih =>
    unfold bulletLinesCode bulletLinesSpec
    rw [ih]

/-- The 0-based `subIndex` loop prints the same blocks as the 1-based
spec-side description. -/
theorem subsectionBlocksCode_eq_spec (l : List Subsection) :
    ∀ i, subsectionBlocksCode i l = subsectionListSpec (i + 1) l := by
  induction l with
  | nil => intro i; rfl
  | cons ss rest ih =>
    intro i
    unfold subsectionBlocksCode subsectionListSpec subsectionBlockSpec
    rw [ih (i + 1)]
    cases hp : ss.points <;> simp [hp, bulletLinesCode_eq_spec]

/-- For a section that does carry a `subsections` array, the code-side block
is exactly the spec-side block. -/
theorem sectionBlockCode_eq_spec (i : Nat) (s : Section)
    (h : s.subsections.isSome = true) :
    sectionBlockCode i s = some (sectionBlockSpec (i + 1) s) := by
  obtain ⟨subs, hsub⟩ := Option.isSome_iff_exists.mp h
  unfold sectionBlockCode sectionBlockSpec underlineSpec jsRepeat
  rw [hsub]
  cases hp : s.points <;> cases hc : s.content <;>
    simp [hp, hc, subsectionBlocksCode_eq_spec subs 0, pointsLinesCode_eq_spec,
      String.append_assoc]

/-- The accumulating export loop produces the concatenation of the spec-side
blocks appended to the accumulator. -/
theorem formatGo_eq_spec (l : List Section) :
    ∀ i acc, l.all (fun s => s.subsections.isSome) = true →
      formatGo acc i l = some (acc ++ sectionListSpec (i + 1) l) := by
  induction l with
  | nil =>
    intro i acc _
    unfold formatGo sectionListSpec
    rw [String.append_empty]
  | cons s rest ih =>
    intro i acc h
    rw [List.all_cons, Bool.and_eq_true] at h
    obtain ⟨h1, h2⟩ := h
    unfold formatGo sectionListSpec
    rw [sectionBlockCode_eq_spec i s h1]
    show formatGo (acc ++ sectionBlockSpec (i + 1) s) (i + 1) rest = _
    rw [ih (i + 1) (acc ++ sectionBlockSpec (i + 1) s) h2]
    rw [String.append_assoc]

/-- Claim C6. For every section list in which each section carries a
`subsections` array (the shape the data model prescribes and the parser
always produces), `formatNotesForDownload` deterministically produces exactly
the layout stated by the specification: the "VIDEO NOTES" header followed by
a blank line, then per section the 1-based index line, the `=` underline of
length `len(title) + 4`, the content paragraphs each followed by a blank
line, the "Key Points:" block with 1-based numbered lines when the section
has points, the 1-based indexed sub-heading lines with one bulleted line per
point when the subsection has points, and a blank line after each section. -/
theorem formatNotesForDownload_layout (sections : List Section)
    (h : sections.all (fun s => s.subsections.isSome) = true) :
    formatNotesForDownload sections = some (formatSpec sections) := by
  unfold formatNotesForDownload formatSpec
  exact formatGo_eq_spec sections 0 "VIDEO NOTES\n\n" h

/-- Witness for C6 on a two-section tree exercising content, points and a
subsection with points. -/
theorem formatNotesForDownload_layout_witness :
    formatNotesForDownload
        [{ title := "Overview", content := some ["Intro paragraph"], points := none,
           subsections := some [{ title := "Topics", points := some ["alpha", "beta"] }] },
         { title := "Key Points", content := none, points := some ["First point"],
           subsections := some [] }] =
      some (formatSpec
        [{ title := "Overview", content := some ["Intro paragraph"], points := none,
           subsections := some [{ title := "Topics", points := some ["alpha", "beta"] }] },
         { title := "Key Points", content := none, points := some ["First point"],
           subsections := some [] }]) :=
  formatNotesForDownload_layout _ (by decide)

/-- Claim C8. For every run of `sendMessage` on a non-empty trimmed question,
on the success path and on the failure path alike: the controls are disabled
strictly before the `/ask_question` fetch is awaited (and are in the disabled
state at that moment), `enableInput` is the final step and runs exactly once,
and at every point after the fetch has been awaited but before the run ends
the input element and the send button are both still disabled — so a second
question cannot be submitted while a reply is pending. -/
theorem sendMessage_controls (value : String) (ok : Bool)
    (h : (jsTrim value.data).asString ≠ "") :
    ((sendMessageTrace value ok).takeWhile
        (fun e => e != QnaEvent.awaitFetch)).contains QnaEvent.disableControls = true ∧
    controlsAfter ((sendMessageTrace value ok).takeWhile (fun e => e != QnaEvent.awaitFetch)) =
      { inputDisabled := true, sendDisabled := true } ∧
    (sendMessageTrace value ok).getLast? = some QnaEvent.enableControls ∧
    (sendMessageTrace value ok).count QnaEvent.enableControls = 1 ∧
    ∀ k, k < (sendMessageTrace value ok).length →
      ((sendMessageTrace value ok).take k).contains QnaEvent.awaitFetch = true →
      controlsAfter ((sendMessageTrace value ok).take k) =
        { inputDisabled := true, sendDisabled := true } := by
  cases ok with
  | true =>
    have ht : sendMessageTrace value true =
        [.addUserMessage, .clearInput, .showTyping, .disableControls, .awaitFetch,
         .hideTyping, .processReply, .updateStats, .enableControls] := by
      simp [sendMessageTrace, h]
    rw [ht]
    decide
  | false =>
    have ht : sendMessageTrace value false =
        [.addUserMessage, .clearInput, .showTyping, .disableControls, .awaitFetch,
         .hideTyping, .showErrorMessage, .enableControls] := by
      simp [sendMessageTrace, h]
    rw [ht]
    decide

/-- Witness for C8 on a concrete question, success path. -/
theorem sendMessage_controls_witness :
    ((sendMessageTrace "What is this video about" true).takeWhile
        (fun e => e != QnaEvent.awaitFetch)).contains QnaEvent.disableControls = true ∧
    controlsAfter ((sendMessageTrace "What is this video about" true).takeWhile
        (fun e => e != QnaEvent.awaitFetch)) =
      { inputDisabled := true, sendDisabled := true } ∧
    (sendMessageTrace "What is this video about" true).getLast? =
      some QnaEvent.enableControls ∧
    (sendMessageTrace "What is this video about" true).count QnaEvent.enableControls = 1 ∧
    ∀ k, k < (sendMessageTrace "What is this video about" true).length →
      ((sendMessageTrace "What is this video about" true).take k).contains
          QnaEvent.awaitFetch = true →
      controlsAfter ((sendMessageTrace "What is this video about" true).take k) =
        { inputDisabled := true, sendDisabled := true } :=
  sendMessage_controls "What is this video about" true (by decide)

/-- A well-formed item line `1. <item>` is untouched by trimming. -/
theorem jsTrim_itemLine {s : String} (hs : goodItem s) :
    jsTrim ('1' :: '.' :: ' ' :: s.data) = '1' :: '.' :: ' ' :: s.data := by
  obtain ⟨hne, _, hlast, _⟩ := hs
  apply jsTrim_eq_self
  · show (some '1').all (fun c => !isWS c) = true
    decide
  · have : ('1' :: '.' :: ' ' :: s.data).getLast? = s.data.getLast? := by
      show ((['1', '.', ' '] : List Char) ++ s.data).getLast? = s.data.getLast?
      exact List.getLast?_append_of_ne_nil ['1', '.', ' '] hne
    rw [this]
    exact hlast

/-- On a well-formed item line, the numbered-item pattern matches and strips
the numbering. -/
theorem matchNumbered_itemLine {s : String} (hs : goodItem s) :
    matchNumbered ('1' :: '.' :: ' ' :: s.data) = some s.data := by
  obtain ⟨hne, hh, _, _⟩ := hs
  cases hdat : s.data with
  | nil => exact absurd hdat hne
  | cons d ds =>
    have hd : isWS d = false := by
      rw [hdat] at hh
      simpa using hh
    unfold matchNumbered wsThenRest
    have d1 : ('1' : Char).isDigit = true := by decide
    have d2 : ('.' : Char).isDigit = false := by decide
    have w1 : isWS ' ' = true := by decide
    simp [List.takeWhile_cons, List.dropWhile_cons, d1, d2, w1, hd]

/-- Processing one well-formed item line while the key-points flag is on
appends the stripped item to the accumulator and changes nothing else. -/
theorem parseLine_itemLine (st : ParseState) {s : String}
    (hkp : st.inKeyPoints = true) (hs : goodItem s) :
    parseLine st ('1' :: '.' :: ' ' :: s.data) =
      { st with keyPoints := st.keyPoints ++ [s] } := by
  have hmh : matchHash (jsTrim ('1' :: '.' :: ' ' :: s.data)) = none := by
    rw [jsTrim_itemLine hs]
    simp [matchHash]
  have hmh2 : matchHash2 (jsTrim ('1' :: '.' :: ' ' :: s.data)) = none := by
    rw [jsTrim_itemLine hs]
    simp [matchHash2]
  have hmn : matchNumbered (jsTrim ('1' :: '.' :: ' ' :: s.data)) = some s.data := by
    rw [jsTrim_itemLine hs]
    exact matchNumbered_itemLine hs
  have hstr : s.data.asString = s := rfl
  unfold parseLine
  simp only [hmh, hmh2, hmn, hkp, if_true, hstr]

/-- Folding the parser over a block of well-formed item lines while the
key-points flag is on appends exactly those items to the accumulator. -/
theorem foldl_itemLines (items : List String) :
    ∀ st : ParseState, st.inKeyPoints = true → (∀ s ∈ items, goodItem s) →
      (items.map (fun s => '1' :: '.' :: ' ' :: s.data)).foldl parseLine st =
        { st with keyPoints := st.keyPoints ++ items } := by
  induction items with
  | nil => intro st _ _; simp
  | cons s t ih =>
    intro st hkp h
    have hs := h s (List.mem_cons_self s t)
    have ht : ∀ x ∈ t, goodItem x := fun x hx => h x (List.mem_cons_of_mem s hx)
    rw [List.map_cons, List.foldl_cons, parseLine_itemLine st hkp hs]
    rw [ih { st with keyPoints := st.keyPoints ++ [s] } hkp ht]
    simp

/-- Claim C9. When a "Key Points" subsection heading appears before any
section heading, the subsection object is silently lost (no section of the
output has any subsection), yet key-points-collection mode is still entered
(second conjunct), the numbered lines that follow are accumulated, and since
a section exists by the end of the input the accumulated items surface in the
synthesized "Key Points" section, spliced after the only section. -/
theorem keypoints_heading_before_any_section (items : List String)
    (h : ∀ s ∈ items, goodItem s) (hne : items ≠ []) :
    parseStructuredNotes (keyPointsFirstInput items) =
      [{ title := "Conclusion", content := some [], points := none,
         subsections := some [] },
       { title := "Key Points", content := none, points := some items,
         subsections := some [] }] ∧
    (parseLine initState "## Key Points".data).inKeyPoints = true := by
  have hdata : (keyPointsFirstInput items).data =
      "## Key Points".data ++ '\n' :: ((numberedLines items).data ++ "# Conclusion".data) := by
    show ("## Key Points\n" ++ (numberedLines items ++ "# Conclusion")).data = _
    rw [String.data_append, String.data_append]
    have e1 : "## Key Points\n".data = "## Key Points".data ++ ['\n'] := rfl
    rw [e1]
    simp
  have hlines : parsedLines (keyPointsFirstInput items) =
      "## Key Points".data ::
        ((items.map (fun s => '1' :: '.' :: ' ' :: s.data)) ++ ["# Conclusion".data]) := by
    unfold parsedLines
    rw [hdata, splitLinesCh_append_newline (by decide), splitLinesCh_numbered items _ h,
      splitLinesCh_no_newline (by decide)]
    apply List.filter_eq_self.mpr
    intro l hl
    rcases List.mem_cons.mp hl with rfl | hl
    · decide
    rcases List.mem_append.mp hl with hl | hl
    · obtain ⟨s, hsmem, rfl⟩ := List.mem_map.mp hl
      rw [jsTrim_itemLine (h s hsmem)]
      simp
    · rcases List.mem_cons.mp hl with rfl | hl
      · decide
      · exact absurd hl (List.not_mem_nil l)
  have hfirst : parseLine initState "## Key Points".data =
      { sections := [], currentSection := none, subOpen := false,
        inKeyPoints := true, keyPoints := [] } := by
    decide
  have hlast : ∀ kps : List String,
      parseLine
          { sections := [], currentSection := none, subOpen := false,
            inKeyPoints := true, keyPoints := kps }
          "# Conclusion".data =
        { sections := [],
          currentSection := some { title := "Conclusion", content := [], subsections := [] },
          subOpen := false, inKeyPoints := false, keyPoints := kps } := by
    intro kps
    have hm : matchHash (jsTrim "# Conclusion".data) = some "Conclusion".data := by decide
    unfold parseLine
    simp only [hm]
    rfl
  have hpass : parseLinePass (keyPointsFirstInput items) =
      { sections := [],
        currentSection := some { title := "Conclusion", content := [], subsections := [] },
        subOpen := false, inKeyPoints := false, keyPoints := items } := by
    unfold parseLinePass
    rw [hlines, List.foldl_cons, hfirst, List.foldl_append]
    rw [foldl_itemLines items _ rfl h]
    simp only [List.foldl_cons, List.foldl_nil, List.nil_append]
    exact hlast items
  have hsec : linePassSections (keyPointsFirstInput items) =
      [{ title := "Conclusion", content := some [], points := none,
         subsections := some [] }] := by
    unfold linePassSections
    rw [hpass]
    rfl
  have hkpa : keyPointsAcc (keyPointsFirstInput items) = items := by
    unfold keyPointsAcc
    rw [hpass]
  have hlen : 0 < items.length := List.length_pos.mpr hne
  have hfind : (linePassSections (keyPointsFirstInput items)).findIdx? isOverviewSection
      = none := by
    rw [hsec]
    decide
  have hsplice : splicedSections (keyPointsFirstInput items) =
      [{ title := "Conclusion", content := some [], points := none,
         subsections := some [] },
       { title := "Key Points", content := none, points := some items,
         subsections := some [] }] := by
    unfold splicedSections
    rw [hfind, hkpa, hsec]
    simp [hlen, spliceAt, mkKeyPointsSection]
  constructor
  · unfold parseStructuredNotes
    rw [hsplice]
    simp
  · decide

/-- Witness for C9 with two concrete items. -/
theorem keypoints_heading_before_any_section_witness :
    parseStructuredNotes (keyPointsFirstInput ["Alpha point", "Beta point"]) =
      [{ title := "Conclusion", content := some [], points := none,
         subsections := some [] },
       { title := "Key Points", content := none, points := some ["Alpha point", "Beta point"],
         subsections := some [] }] ∧
    (parseLine initState "## Key Points".data).inKeyPoints = true :=
  keypoints_heading_before_any_section ["Alpha point", "Beta point"] (by decide) (by decide)

/-- Claim C10. Every section in the output of `parseStructuredNotes` —
heading-derived, synthesized, or fallback — carries a `subsections` array,
and consequently `formatNotesForDownload`, whose iteration over
`section.subsections` is unguarded, never faults on any parser output. -/
theorem parse_subsections_always_present (notes : String) :
    ((parseStructuredNotes notes).all (fun s => s.subsections.isSome)) = true ∧
    (formatNotesForDownload (parseStructuredNotes notes)).isSome = true := by
  have hp : (parseStructuredNotes notes).all (fun s => s.subsections.isSome) = true := by
    unfold parseStructuredNotes
    split
    · exact splicedSections_subsSome notes
    · rfl
  exact ⟨hp, formatGo_isSome _ 0 _ hp⟩

end VideoNotes
